import Mathlib

/-!
# Divide_By_Zero

A verification development for `Divide_By_Zero.cpp`: three ways of guarding an
integer division against a zero denominator (`unsafe_div`, `checked_div`,
`seh_div`), the timing harness `benchmark` and the driver `main`.

The program is embedded shallowly. A call yields the list of events it
performed, in order, together with the way it ended: a normal return, a C++
`std::runtime_error`, or a structured (hardware) exception that nobody has
handled yet. Machine integers are mathematical integers; the places where
their range matters (the quotient of the division instruction, the increment of
the loop counter, the difference of two clock readings) are modelled explicitly.
-/

namespace DivideByZero

/-! ## Machine integers and structured exceptions -/

/-- Smallest value of the 32-bit type `int`. -/
def INT_MIN : Int := -2147483648

/-- Largest value of the 32-bit type `int`. -/
def INT_MAX : Int := 2147483647

/-- The integer `v` is a value of the C++ type `int`. -/
def isInt (v : Int) : Prop := INT_MIN ≤ v ∧ v ≤ INT_MAX

instance decidableIsInt (v : Int) : Decidable (isInt v) := by
  unfold isInt
  infer_instance

/-- Exception code `STATUS_INTEGER_DIVIDE_BY_ZERO` of `Windows.h`. -/
def EXCEPTION_INT_DIVIDE_BY_ZERO : Nat := 0xC0000094

/-- Exception code `STATUS_INTEGER_OVERFLOW` of `Windows.h`. -/
def EXCEPTION_INT_OVERFLOW : Nat := 0xC0000095

/-- Filter value of `Windows.h`: run the `__except` block. -/
def EXCEPTION_EXECUTE_HANDLER : Int := 1

/-- Filter value of `Windows.h`: this handler declines, keep searching outwards. -/
def EXCEPTION_CONTINUE_SEARCH : Int := 0

/-- How a call ends. -/
inductive Result (α : Type) where
  /-- The call returns `v` to its caller. -/
  | ret (v : α)
  /-- The call leaves with a `std::runtime_error` whose `what()` is the string. -/
  | thrown (what : String)
  /-- The call leaves with an unhandled structured exception of this code. -/
  | fault (code : Nat)
  deriving DecidableEq, Repr

/-- The three division functions of the program. -/
inductive Fn where
  | unsafe_div
  | checked_div
  | seh_div
  deriving DecidableEq, Repr

/-- One operand of `std::cout <<`. -/
inductive OutItem where
  /-- A C string or `what()` text. -/
  | str (s : String)
  /-- An `int`, printed in decimal. -/
  | int (v : Int)
  /-- A `double`, given by its exact value. -/
  | dbl (x : ℚ)
  deriving DecidableEq

/-- What the program does, as far as the properties below can tell. -/
inductive Event where
  /-- Function `f` is entered with these arguments. -/
  | call (f : Fn) (numerator denominator : Int)
  /-- Function `f` evaluates `denominator == 0`. -/
  | zeroTest (f : Fn) (denominator : Int)
  /-- Function `f` executes the division instruction on these operands. -/
  | divide (f : Fn) (numerator denominator : Int)
  /-- The division instruction of `f` raises the structured exception `code`. -/
  | fault (f : Fn) (code : Nat)
  /-- The `__except` filter of `f` is evaluated for `code` and yields `disposition`. -/
  | filter (f : Fn) (code : Nat) (disposition : Int)
  /-- Function `f` executes `throw std::runtime_error(what)`. -/
  | throw (f : Fn) (what : String)
  /-- The expression `high_resolution_clock::now()` is evaluated and yields tick count `t`. -/
  | now (t : Int)
  /-- One `<<` on `std::cout`. -/
  | write (item : OutItem)
  /-- The call `system(command)`. -/
  | system (command : String)
  deriving DecidableEq

/-- A finished computation: the events it performed and how it ended. -/
abbrev Exec (α : Type) := List Event × Result α

/-- The type `pDiv = int(int, int)` of the functions `benchmark` is given. -/
abbrev pDiv := Int → Int → Exec Int

/-! ## The division instruction -/

/-- The signed 32-bit division instruction that `numerator / denominator`
compiles to, as a Windows process observes it: a zero divisor raises
`EXCEPTION_INT_DIVIDE_BY_ZERO`, a quotient that does not fit in 32 bits raises
`EXCEPTION_INT_OVERFLOW`, and otherwise the quotient rounded toward zero is
produced. -/
def idiv (numerator denominator : Int) : Result Int :=
  if denominator = 0 then .fault EXCEPTION_INT_DIVIDE_BY_ZERO
  else
    let q := Int.tdiv numerator denominator
    if INT_MIN ≤ q ∧ q ≤ INT_MAX then .ret q else .fault EXCEPTION_INT_OVERFLOW

/-- The expression `numerator / denominator` evaluated inside function `f`. -/
def divide (f : Fn) (numerator denominator : Int) : Exec Int :=
  match idiv numerator denominator with
  | .fault code => ([.divide f numerator denominator, .fault f code], .fault code)
  | r => ([.divide f numerator denominator], r)

/-! ## The three division functions -/

/-- Unchecked division: `return numerator / denominator;`. -/
def unsafe_div (numerator denominator : Int) : Exec Int :=
  let r := divide .unsafe_div numerator denominator
  (.call .unsafe_div numerator denominator :: r.1, r.2)

/-- Checked division: test the denominator, then throw or divide. -/
def checked_div (numerator denominator : Int) : Exec Int :=
  if denominator = 0 then
    ([.call .checked_div numerator denominator, .zeroTest .checked_div denominator,
      .throw .checked_div "Divide by zero. -checked_div"],
     .thrown "Divide by zero. -checked_div")
  else
    let r := divide .checked_div numerator denominator
    (.call .checked_div numerator denominator :: .zeroTest .checked_div denominator :: r.1, r.2)

/-- The filter expression of the `__except` clause of `seh_div`:
`GetExceptionCode() == EXCEPTION_INT_DIVIDE_BY_ZERO ? EXCEPTION_EXECUTE_HANDLER :
EXCEPTION_CONTINUE_SEARCH`. -/
def seh_filter (code : Nat) : Int :=
  if code = EXCEPTION_INT_DIVIDE_BY_ZERO then EXCEPTION_EXECUTE_HANDLER
  else EXCEPTION_CONTINUE_SEARCH

/-- Division inside `__try`: a structured exception raised by the body is
offered to the filter; when the filter says `EXCEPTION_EXECUTE_HANDLER` the
`__except` block runs and throws, otherwise the exception keeps propagating. -/
def seh_div (numerator denominator : Int) : Exec Int :=
  let body := divide .seh_div numerator denominator
  match body.2 with
  | .fault code =>
    let disposition := seh_filter code
    if disposition = EXCEPTION_EXECUTE_HANDLER then
      (.call .seh_div numerator denominator :: body.1 ++
        [.filter .seh_div code disposition, .throw .seh_div "Divide by zero. -seh_div"],
       .thrown "Divide by zero. -seh_div")
    else
      (.call .seh_div numerator denominator :: body.1 ++ [.filter .seh_div code disposition],
       .fault code)
  | r => (.call .seh_div numerator denominator :: body.1, r)

/-- The function that each name stands for. -/
def variant : Fn → pDiv
  | .unsafe_div => unsafe_div
  | .checked_div => checked_div
  | .seh_div => seh_div

/-! ## The benchmark -/

/-- The 32-bit two's complement value with the same low 32 bits as `v`: what an
`int` holds after an arithmetic instruction computed `v`. -/
def wrapInt (v : Int) : Int := (v + 2147483648) % 4294967296 - 2147483648

/-- One call made by the loop of `benchmark`: the arguments and how the call ended. -/
structure Call where
  numerator : Int
  denominator : Int
  result : Result Int
  deriving DecidableEq

/-- What a run of the loop, or of `benchmark`, amounts to. -/
structure Run where
  /-- The calls of `divFunc`, in order. -/
  calls : List Call
  /-- The events performed, in order. -/
  trace : List Event
  /-- How the run ended. -/
  result : Result Unit

/-- The statement `for (int i = 0; i < limit; ++i) divFunc(i, 2);` from counter
value `i` on, with the bound as a parameter (`benchmark` uses 1'000'000'000).
An exception leaving `divFunc` leaves the loop. The first argument bounds the
number of times the loop condition is evaluated; `none` means that this bound
was reached before the loop ended. -/
def benchLoop (limit : Int) (divFunc : pDiv) : Nat → Int → Option Run
  | 0, _ => none
  | fuel + 1, i =>
    if i < limit then
      let r := divFunc i 2
      match r.2 with
      | .ret _ =>
        match benchLoop limit divFunc fuel (wrapInt (i + 1)) with
        | some rest =>
          some { calls := ⟨i, 2, r.2⟩ :: rest.calls, trace := r.1 ++ rest.trace,
                 result := rest.result }
        | none => none
      | .thrown what => some { calls := [⟨i, 2, r.2⟩], trace := r.1, result := .thrown what }
      | .fault code => some { calls := [⟨i, 2, r.2⟩], trace := r.1, result := .fault code }
    else some { calls := [], trace := [], result := .ret () }

/-- Rounding of a rational to an integer, ties to the even neighbour. -/
def roundHalfEven (x : ℚ) : Int :=
  let f := Int.floor x
  if x - f < 1 / 2 then f
  else if 1 / 2 < x - f then f + 1
  else if f % 2 = 0 then f else f + 1

/-- The `double` nearest to `x` (53-bit significand, ties to even). The exponent
range is left out: the values rounded in `benchmark` are a 64-bit count and its
millionth, far inside it. -/
def toDouble (x : ℚ) : ℚ :=
  if x = 0 then 0
  else if 0 < x then
    let e := Int.log 2 x - 52
    (roundHalfEven (x / 2 ^ e) : ℚ) * 2 ^ e
  else
    let e := Int.log 2 (-x) - 52
    Neg.neg ((roundHalfEven (-x / 2 ^ e) : ℚ) * 2 ^ e)

/-- Smallest value of the 64-bit type `long long`, in which the clock counts ticks. -/
def INT64_MIN : Int := -9223372036854775808

/-- Largest value of the 64-bit type `long long`. -/
def INT64_MAX : Int := 9223372036854775807

/-- The integer `v` is a value of the 64-bit type `long long`. -/
def isInt64 (v : Int) : Prop := INT64_MIN ≤ v ∧ v ≤ INT64_MAX

instance decidableIsInt64 (v : Int) : Decidable (isInt64 v) := by
  unfold isInt64
  infer_instance

/-- The 64-bit two's complement value with the same low 64 bits as `v`: what a
`long long` holds after an arithmetic instruction computed `v`. -/
def wrapInt64 (v : Int) : Int :=
  (v + 9223372036854775808) % 18446744073709551616 - 9223372036854775808

/-- The value of `duration_cast<microseconds>(stopTime - startTime).count()`.
Time points are tick counts of `high_resolution_clock`, held in a `long long`;
under MSVC the period is one nanosecond. The subtraction is a 64-bit
subtraction, and the cast divides by 1000 and drops the fraction. -/
def elapsedMicros (startTime stopTime : Int) : Int :=
  Int.tdiv (wrapInt64 (stopTime - startTime)) 1000

/-- The value printed after `Benchmark time (s): `, namely
`(double)duration_cast<microseconds>(stopTime - startTime).count() / 1.0E6`. -/
def elapsedSeconds (startTime stopTime : Int) : ℚ :=
  toDouble (toDouble (elapsedMicros startTime stopTime) / 1000000)

/-- The harness `benchmark(divFunc, method)`. The two clock readings are inputs:
`startTime` is what the first `now()` yields, `stopTime` the second. The loop is
allowed 1'000'000'001 evaluations of its condition, which is what it takes when
no call is cut short (`benchmark_any`: the result is never `none`). When the loop
is left by an exception, the second reading and the report do not happen. -/
def benchmark (divFunc : pDiv) (method : String) (startTime stopTime : Int) : Option Run :=
  match benchLoop 1000000000 divFunc 1000000001 0 with
  | none => none
  | some loop =>
    match loop.result with
    | .ret _ =>
      some { calls := loop.calls,
             trace := .now startTime :: loop.trace ++
               [.now stopTime, .write (.str "Method: "), .write (.str method),
                .write (.str "\nBenchmark time (s): "),
                .write (.dbl (elapsedSeconds startTime stopTime)), .write (.str "\n")],
             result := .ret () }
    | r => some { calls := loop.calls, trace := .now startTime :: loop.trace, result := r }

/-! ## The driver -/

/-- The statement `try { std::cout << call << "\n"; } catch (const std::exception& err)
{ std::cout << err.what() << "\n"; }` where `call` has been evaluated to `r`.
A structured exception is not a `std::exception` and passes through. -/
def tryPrint (r : Exec Int) : Exec Unit :=
  match r.2 with
  | .ret v => (r.1 ++ [.write (.int v), .write (.str "\n")], .ret ())
  | .thrown what => (r.1 ++ [.write (.str what), .write (.str "\n")], .ret ())
  | .fault code => (r.1, .fault code)

/-- Sequencing of two statements: the second runs when the first completed. -/
def andThen {α : Type} (first : Option (Exec Unit)) (next : Option (Exec α)) :
    Option (Exec α) :=
  match first with
  | none => none
  | some (tr, .ret _) =>
    match next with
    | none => none
    | some (tr2, r) => some (tr ++ tr2, r)
  | some (tr, .thrown what) => some (tr, .thrown what)
  | some (tr, .fault code) => some (tr, .fault code)

/-- A call of `benchmark` as a statement of `main`. -/
def stmt (run : Option Run) : Option (Exec Unit) :=
  run.map fun r => (r.trace, r.result)

/-- The function `main`. The argument gives the successive readings of the clock:
`clock k` is what the `k`-th evaluation of `now()` yields. The call
`system("pause")` is an event; it is taken to return. -/
def main (clock : Nat → Int) : Option (Exec Int) :=
  andThen (some (tryPrint (checked_div 42 0))) <|
  andThen (some (tryPrint (seh_div 42 0))) <|
  andThen (stmt (benchmark unsafe_div "unsafe_div" (clock 0) (clock 1))) <|
  andThen (stmt (benchmark checked_div "checked_div" (clock 2) (clock 3))) <|
  andThen (stmt (benchmark seh_div "seh_div" (clock 4) (clock 5))) <|
  andThen (stmt (benchmark unsafe_div "unsafe_div" (clock 6) (clock 7))) <|
  andThen (stmt (benchmark checked_div "checked_div" (clock 8) (clock 9))) <|
  andThen (stmt (benchmark seh_div "seh_div" (clock 10) (clock 11))) <|
  some ([.system "pause"], .ret 0)

/-- What reaches standard output: the operands of `<<`, in order. -/
def stdout : List Event → List OutItem
  | [] => []
  | .write item :: rest => item :: stdout rest
  | _ :: rest => stdout rest

/-- The text of standard output, given the text that `<<` produces for a `double`. -/
def render (showDouble : ℚ → String) : List OutItem → String
  | [] => ""
  | .str s :: rest => s ++ render showDouble rest
  | .int v :: rest => toString v ++ render showDouble rest
  | .dbl x :: rest => showDouble x ++ render showDouble rest

/-! ## Closed forms used in the statements -/

/-- The events of one billion successive calls `divFunc(0, 2)`, `divFunc(1, 2)`, ... -/
@[irreducible]
def callEvents (divFunc : pDiv) : List Event :=
  (List.range 1000000000).flatMap fun j : Nat => (divFunc (j : Int) 2).1

/-- The events of a harness run on one of the three functions. -/
def variantTrace (f : Fn) (method : String) (startTime stopTime : Int) : List Event :=
  (.now startTime :: callEvents (variant f)) ++
    [.now stopTime, .write (.str "Method: "), .write (.str method),
     .write (.str "\nBenchmark time (s): "),
     .write (.dbl (elapsedSeconds startTime stopTime)), .write (.str "\n")]


/-! ## The division instruction: facts -/

theorem idiv_zero (n : Int) : idiv n 0 = .fault EXCEPTION_INT_DIVIDE_BY_ZERO := by
  simp [idiv]

/-- The truncated quotient is no larger in absolute value than the dividend. -/
theorem natAbs_tdiv_le (n d : Int) : (Int.tdiv n d).natAbs ≤ n.natAbs := by
  rw [Int.natAbs_tdiv]
  exact Nat.div_le_self _ _

/-- The quotient of two `int` values fits in an `int`, `INT_MIN / -1` apart. -/
theorem tdiv_isInt (n d : Int) (hn : isInt n) (hd : d ≠ 0)
    (hov : ¬(n = INT_MIN ∧ d = -1)) : isInt (Int.tdiv n d) := by
  unfold isInt INT_MIN INT_MAX at *
  have hle := natAbs_tdiv_le n d
  have hq := Int.natAbs_tdiv n d
  constructor
  · omega
  · by_contra hgt
    have hq31 : (Int.tdiv n d).natAbs = 2147483648 := by omega
    have hn31 : n = -2147483648 := by omega
    have hdabs : d.natAbs = 1 := by
      by_contra h1
      have h2 : 2 ≤ d.natAbs := by omega
      have h3 : n.natAbs.div d.natAbs ≤ n.natAbs / 2 :=
        Nat.div_le_div_left h2 (by decide)
      have h4 : n.natAbs = 2147483648 := by omega
      rw [hq] at hq31
      omega
    rcases Int.natAbs_eq d with h | h
    · rw [hdabs] at h
      have : d = 1 := by simpa using h
      subst this
      rw [Int.tdiv_one] at hgt
      omega
    · rw [hdabs] at h
      have : d = -1 := by simpa using h
      exact hov ⟨hn31, this⟩

theorem idiv_ret (n d : Int) (hn : isInt n) (hd : d ≠ 0)
    (hov : ¬(n = INT_MIN ∧ d = -1)) : idiv n d = .ret (Int.tdiv n d) := by
  have h := tdiv_isInt n d hn hd hov
  unfold isInt at h
  simp [idiv, hd, h]

/-- The division instruction never ends like a `throw`. -/
theorem idiv_ne_thrown (n d : Int) (what : String) : idiv n d ≠ .thrown what := by
  unfold idiv
  split
  · simp
  · simp only
    split <;> simp

/-! ## The three functions in closed form -/

theorem unsafe_div_ret (n d q : Int) (h : idiv n d = .ret q) :
    unsafe_div n d = ([.call .unsafe_div n d, .divide .unsafe_div n d], .ret q) := by
  simp [unsafe_div, divide, h]

theorem checked_div_zero (n : Int) :
    checked_div n 0 =
      ([.call .checked_div n 0, .zeroTest .checked_div 0,
        .throw .checked_div "Divide by zero. -checked_div"],
       .thrown "Divide by zero. -checked_div") := by
  simp [checked_div]

theorem checked_div_ret (n d q : Int) (h : idiv n d = .ret q) :
    checked_div n d =
      ([.call .checked_div n d, .zeroTest .checked_div d, .divide .checked_div n d],
       .ret q) := by
  have hd : d ≠ 0 := by
    rintro rfl
    rw [idiv_zero] at h
    cases h
  simp [checked_div, divide, h, hd]

theorem checked_div_fault (n d : Int) (hd : d ≠ 0) (code : Nat) (h : idiv n d = .fault code) :
    checked_div n d =
      ([.call .checked_div n d, .zeroTest .checked_div d, .divide .checked_div n d,
        .fault .checked_div code], .fault code) := by
  simp [checked_div, divide, h, hd]

theorem seh_div_ret (n d q : Int) (h : idiv n d = .ret q) :
    seh_div n d = ([.call .seh_div n d, .divide .seh_div n d], .ret q) := by
  simp [seh_div, divide, h]

theorem seh_div_zero (n : Int) :
    seh_div n 0 =
      ([.call .seh_div n 0, .divide .seh_div n 0,
        .fault .seh_div EXCEPTION_INT_DIVIDE_BY_ZERO,
        .filter .seh_div EXCEPTION_INT_DIVIDE_BY_ZERO EXCEPTION_EXECUTE_HANDLER,
        .throw .seh_div "Divide by zero. -seh_div"],
       .thrown "Divide by zero. -seh_div") := by
  simp [seh_div, divide, idiv_zero, seh_filter]

theorem seh_div_fault (n d : Int) (code : Nat) (h : idiv n d = .fault code)
    (hc : code ≠ EXCEPTION_INT_DIVIDE_BY_ZERO) :
    seh_div n d =
      ([.call .seh_div n d, .divide .seh_div n d, .fault .seh_div code,
        .filter .seh_div code EXCEPTION_CONTINUE_SEARCH], .fault code) := by
  simp [seh_div, divide, h, seh_filter, hc, EXCEPTION_CONTINUE_SEARCH,
    EXCEPTION_EXECUTE_HANDLER]

/-! ## Agreement of the three functions -/

/-- C1, as stated, fails: `INT_MIN` and `-1` are `int` values and the denominator
is not zero, yet none of the three functions returns a value there. The quotient
`2147483648` is not an `int`; the division instruction raises the integer-overflow
fault, which leaves all three functions. -/
theorem c1_overflow_counterexample :
    isInt INT_MIN ∧ isInt (-1) ∧ (-1 : Int) ≠ 0 ∧
    Int.tdiv INT_MIN (-1) = 2147483648 ∧ ¬ isInt (Int.tdiv INT_MIN (-1)) ∧
    (unsafe_div INT_MIN (-1)).2 = .fault EXCEPTION_INT_OVERFLOW ∧
    (checked_div INT_MIN (-1)).2 = .fault EXCEPTION_INT_OVERFLOW ∧
    (seh_div INT_MIN (-1)).2 = .fault EXCEPTION_INT_OVERFLOW ∧
    ¬ (∃ v, (unsafe_div INT_MIN (-1)).2 = .ret v ∧ (checked_div INT_MIN (-1)).2 = .ret v ∧
        (seh_div INT_MIN (-1)).2 = .ret v ∧ v = Int.tdiv INT_MIN (-1)) := by
  refine ⟨by decide, by decide, by decide, by decide, by decide, by decide, by decide,
    by decide, ?_⟩
  rintro ⟨v, h, -⟩
  have hf : (unsafe_div INT_MIN (-1)).2 = .fault EXCEPTION_INT_OVERFLOW := by decide
  rw [hf] at h
  cases h

/-- C1, amended: for `int` values `n` and `d` with `d ≠ 0`, other than the pair
`(INT_MIN, -1)`, the calls `unsafe_div(n, d)`, `checked_div(n, d)` and
`seh_div(n, d)` all return the same value, the quotient of `n` by `d` rounded
toward zero, and that value is an `int`. -/
theorem c1_three_variants_agree (n d : Int) (hn : isInt n) (hd : isInt d) (hd0 : d ≠ 0)
    (hov : ¬(n = INT_MIN ∧ d = -1)) :
    (unsafe_div n d).2 = .ret (Int.tdiv n d) ∧
    (checked_div n d).2 = .ret (Int.tdiv n d) ∧
    (seh_div n d).2 = .ret (Int.tdiv n d) ∧
    isInt (Int.tdiv n d) := by
  have _ := hd
  have h := idiv_ret n d hn hd0 hov
  refine ⟨?_, ?_, ?_, tdiv_isInt n d hn hd0 hov⟩
  · rw [unsafe_div_ret n d _ h]
  · rw [checked_div_ret n d _ h]
  · rw [seh_div_ret n d _ h]

/-- Witness of C1 amended: `-7 / 2` is `-3` in all three functions. -/
theorem c1_three_variants_agree_witness :
    isInt (-7) ∧ isInt 2 ∧ Int.tdiv (-7) 2 = -3 ∧
    ((unsafe_div (-7) 2).2 = .ret (Int.tdiv (-7) 2) ∧
     (checked_div (-7) 2).2 = .ret (Int.tdiv (-7) 2) ∧
     (seh_div (-7) 2).2 = .ret (Int.tdiv (-7) 2) ∧
     isInt (Int.tdiv (-7) 2)) :=
  ⟨by decide, by decide, by decide,
   c1_three_variants_agree (-7) 2 (by decide) (by decide) (by decide) (by decide)⟩

/-! ## The checked division -/

/-- C2, as stated, fails in its last part: the denominator `-1` is not zero, yet
`checked_div(INT_MIN, -1)` does not return the integer quotient; the division
overflows and its fault leaves the function. -/
theorem c2_checked_div_counterexample :
    isInt INT_MIN ∧ isInt (-1) ∧ (-1 : Int) ≠ 0 ∧
    checked_div INT_MIN (-1) =
      ([.call .checked_div INT_MIN (-1), .zeroTest .checked_div (-1),
        .divide .checked_div INT_MIN (-1), .fault .checked_div EXCEPTION_INT_OVERFLOW],
       .fault EXCEPTION_INT_OVERFLOW) ∧
    ¬ (∃ q, (checked_div INT_MIN (-1)).2 = .ret q) := by
  refine ⟨by decide, by decide, by decide, by decide, ?_⟩
  rintro ⟨q, h⟩
  have hf : (checked_div INT_MIN (-1)).2 = .fault EXCEPTION_INT_OVERFLOW := by decide
  rw [hf] at h
  cases h

/-- C2, amended: for `int` values `n` and `d`, `checked_div(n, d)` throws if and
only if `d == 0`. For `d == 0` the text of the error is exactly
`Divide by zero. -checked_div` and the events are the call, the test and the
throw: the division instruction is not executed. For `d != 0` nothing is thrown,
and the function returns the quotient rounded toward zero, unless
`(n, d) = (INT_MIN, -1)`. -/
theorem c2_checked_div_error_iff (n d : Int) (hn : isInt n) (hd : isInt d) :
    ((checked_div n d).2 = .thrown "Divide by zero. -checked_div" ↔ d = 0) ∧
    ((∃ what, (checked_div n d).2 = .thrown what) ↔ d = 0) ∧
    (d = 0 →
      checked_div n d =
        ([.call .checked_div n 0, .zeroTest .checked_div 0,
          .throw .checked_div "Divide by zero. -checked_div"],
         .thrown "Divide by zero. -checked_div") ∧
      ∀ f a b, Event.divide f a b ∉ (checked_div n d).1) ∧
    (d ≠ 0 → ¬(n = INT_MIN ∧ d = -1) →
      checked_div n d =
        ([.call .checked_div n d, .zeroTest .checked_div d, .divide .checked_div n d],
         .ret (Int.tdiv n d))) := by
  have _ := hd
  have hthrow : ∀ what, (checked_div n d).2 = .thrown what → d = 0 := by
    intro what h
    by_contra hd0
    cases hi : idiv n d with
    | ret q => rw [checked_div_ret n d q hi] at h; cases h
    | thrown w => exact idiv_ne_thrown n d w hi
    | fault code => rw [checked_div_fault n d hd0 code hi] at h; cases h
  refine ⟨⟨hthrow _, ?_⟩, ⟨fun ⟨w, h⟩ => hthrow w h, ?_⟩, ?_, ?_⟩
  · rintro rfl
    rw [checked_div_zero]
  · rintro rfl
    exact ⟨_, by rw [checked_div_zero]⟩
  · rintro rfl
    refine ⟨checked_div_zero n, ?_⟩
    intro f a b hmem
    rw [checked_div_zero] at hmem
    simp at hmem
  · intro hd0 hov
    exact checked_div_ret n d _ (idiv_ret n d hn hd0 hov)

/-- Witness of C2 amended: the call `checked_div(42, 0)` of the driver. -/
theorem c2_checked_div_error_iff_witness :
    isInt 42 ∧ isInt 0 ∧
    (checked_div 42 0).2 = .thrown "Divide by zero. -checked_div" ∧
    (∀ f a b, Event.divide f a b ∉ (checked_div 42 0).1) :=
  ⟨by decide, by decide,
   (c2_checked_div_error_iff 42 0 (by decide) (by decide)).1.2 rfl,
   ((c2_checked_div_error_iff 42 0 (by decide) (by decide)).2.2.1 rfl).2⟩

/-! ## The division guarded by `__try` -/

/-- C3: for every `n`, `seh_div(n, 0)` ends with a `std::runtime_error` whose
text is exactly `Divide by zero. -seh_div`. The events, in order: the call, the
division instruction on `(n, 0)`, the integer-divide-by-zero fault it raises,
the filter accepting that fault, the throw of the handler. No call of `seh_div`
tests the denominator. -/
theorem c3_seh_div_zero (n : Int) :
    seh_div n 0 =
      ([.call .seh_div n 0, .divide .seh_div n 0,
        .fault .seh_div EXCEPTION_INT_DIVIDE_BY_ZERO,
        .filter .seh_div EXCEPTION_INT_DIVIDE_BY_ZERO EXCEPTION_EXECUTE_HANDLER,
        .throw .seh_div "Divide by zero. -seh_div"],
       .thrown "Divide by zero. -seh_div") ∧
    ∀ m d f x, Event.zeroTest f x ∉ (seh_div m d).1 := by
  refine ⟨seh_div_zero n, ?_⟩
  intro m d f x hmem
  unfold seh_div divide at hmem
  cases hi : idiv m d with
  | ret q => simp [hi] at hmem
  | thrown w => exact idiv_ne_thrown m d w hi
  | fault code =>
    simp only [hi] at hmem
    split at hmem <;> simp at hmem

/-- C4: when the division of `seh_div(n, d)` raises a fault whose code is not
`EXCEPTION_INT_DIVIDE_BY_ZERO`, the filter answers `EXCEPTION_CONTINUE_SEARCH`,
the handler does not run (no throw, no `std::runtime_error`), and `seh_div` ends
with that same fault, unhandled. -/
theorem c4_seh_div_passes_other_faults (n d : Int) (code : Nat)
    (hfault : idiv n d = .fault code) (hcode : code ≠ EXCEPTION_INT_DIVIDE_BY_ZERO) :
    seh_filter code = EXCEPTION_CONTINUE_SEARCH ∧
    (seh_div n d).2 = .fault code ∧
    (∀ what, (seh_div n d).2 ≠ .thrown what) ∧
    (∀ f what, Event.throw f what ∉ (seh_div n d).1) ∧
    seh_div n d =
      ([.call .seh_div n d, .divide .seh_div n d, .fault .seh_div code,
        .filter .seh_div code EXCEPTION_CONTINUE_SEARCH], .fault code) := by
  have h := seh_div_fault n d code hfault hcode
  refine ⟨by simp [seh_filter, hcode], by rw [h], ?_, ?_, h⟩
  · intro what hw
    rw [h] at hw
    cases hw
  · intro f what hmem
    rw [h] at hmem
    simp at hmem

/-- Witness of C4: `INT_MIN / -1` raises the integer-overflow fault, and
`seh_div(INT_MIN, -1)` lets it through. -/
theorem c4_seh_div_passes_other_faults_witness :
    idiv INT_MIN (-1) = .fault EXCEPTION_INT_OVERFLOW ∧
    EXCEPTION_INT_OVERFLOW ≠ EXCEPTION_INT_DIVIDE_BY_ZERO ∧
    (seh_div INT_MIN (-1)).2 = .fault EXCEPTION_INT_OVERFLOW :=
  ⟨by decide, by decide,
   (c4_seh_div_passes_other_faults INT_MIN (-1) EXCEPTION_INT_OVERFLOW (by decide)
      (by decide)).2.1⟩

/-! ## Checked against guarded -/

/-- C10: for `int` values `n` and `d`, `checked_div(n, d)` and `seh_div(n, d)`
end the same way up to the text of the error. Either `d ≠ 0`, the pair is not
`(INT_MIN, -1)` and both return the quotient rounded toward zero; or `d = 0` and
both throw a `std::runtime_error`, the texts being `Divide by zero. ` followed by
`-checked_div` and by `-seh_div`; or the pair is `(INT_MIN, -1)` and both end with
the integer-overflow fault. One returns a value exactly when the other does. -/
theorem c10_checked_seh_equivalent (n d : Int) (hn : isInt n) (hd : isInt d) :
    ((d ≠ 0 ∧ ¬(n = INT_MIN ∧ d = -1) ∧
        (checked_div n d).2 = .ret (Int.tdiv n d) ∧
        (seh_div n d).2 = .ret (Int.tdiv n d)) ∨
     (d = 0 ∧
        (checked_div n d).2 = .thrown ("Divide by zero. " ++ "-checked_div") ∧
        (seh_div n d).2 = .thrown ("Divide by zero. " ++ "-seh_div")) ∨
     (n = INT_MIN ∧ d = -1 ∧
        (checked_div n d).2 = .fault EXCEPTION_INT_OVERFLOW ∧
        (seh_div n d).2 = .fault EXCEPTION_INT_OVERFLOW)) ∧
    ((∃ v, (checked_div n d).2 = .ret v) ↔ (∃ v, (seh_div n d).2 = .ret v)) := by
  have _ := hd
  have key : (d ≠ 0 ∧ ¬(n = INT_MIN ∧ d = -1) ∧
        (checked_div n d).2 = .ret (Int.tdiv n d) ∧
        (seh_div n d).2 = .ret (Int.tdiv n d)) ∨
     (d = 0 ∧
        (checked_div n d).2 = .thrown ("Divide by zero. " ++ "-checked_div") ∧
        (seh_div n d).2 = .thrown ("Divide by zero. " ++ "-seh_div")) ∨
     (n = INT_MIN ∧ d = -1 ∧
        (checked_div n d).2 = .fault EXCEPTION_INT_OVERFLOW ∧
        (seh_div n d).2 = .fault EXCEPTION_INT_OVERFLOW) := by
    by_cases hd0 : d = 0
    · subst hd0
      right; left
      refine ⟨rfl, ?_, ?_⟩
      · rw [checked_div_zero]; rfl
      · rw [seh_div_zero]; rfl
    · by_cases hov : n = INT_MIN ∧ d = -1
      · obtain ⟨rfl, rfl⟩ := hov
        right; right
        exact ⟨rfl, rfl, by decide, by decide⟩
      · left
        have h := idiv_ret n d hn hd0 hov
        exact ⟨hd0, hov, by rw [checked_div_ret n d _ h], by rw [seh_div_ret n d _ h]⟩
  refine ⟨key, ?_⟩
  rcases key with ⟨-, -, hc, hs⟩ | ⟨-, hc, hs⟩ | ⟨-, -, hc, hs⟩
  · exact ⟨fun _ => ⟨_, hs⟩, fun _ => ⟨_, hc⟩⟩
  · rw [hc, hs]
    constructor <;> rintro ⟨v, h⟩ <;> cases h
  · rw [hc, hs]

/-- Witness of C10 at the three kinds of input: `(-7, 2)`, `(42, 0)`, `(INT_MIN, -1)`. -/
theorem c10_checked_seh_equivalent_witness :
    (isInt (-7) ∧ isInt 2 ∧
      ((∃ v, (checked_div (-7) 2).2 = .ret v) ↔ (∃ v, (seh_div (-7) 2).2 = .ret v))) ∧
    (checked_div (-7) 2).2 = .ret (-3) ∧ (seh_div (-7) 2).2 = .ret (-3) ∧
    (checked_div 42 0).2 = .thrown "Divide by zero. -checked_div" ∧
    (seh_div 42 0).2 = .thrown "Divide by zero. -seh_div" ∧
    (checked_div INT_MIN (-1)).2 = .fault EXCEPTION_INT_OVERFLOW ∧
    (seh_div INT_MIN (-1)).2 = .fault EXCEPTION_INT_OVERFLOW :=
  ⟨⟨by decide, by decide, (c10_checked_seh_equivalent (-7) 2 (by decide) (by decide)).2⟩,
   by decide, by decide, by decide, by decide, by decide, by decide⟩

/-! ## The loop of `benchmark` -/

/-- Below `INT_MAX` the increment `++i` does not wrap. -/
theorem wrapInt_succ (i : Int) (h0 : 0 ≤ i) (h1 : i < INT_MAX) : wrapInt (i + 1) = i + 1 := by
  unfold wrapInt INT_MAX at *
  omega

/-- The loop when every call returns: it runs `m` more times from counter `i`
where `i + m = limit`, and ends normally, provided the bound on the number of
condition evaluations exceeds `m`. -/
theorem benchLoop_returns (limit : Int) (hlimit : limit ≤ INT_MAX) (divFunc : pDiv)
    (hret : ∀ k : Int, 0 ≤ k → k < limit → ∃ v, (divFunc k 2).2 = .ret v) :
    ∀ (m : Nat) (i : Int) (fuel : Nat), 0 ≤ i → i + m = limit → m < fuel →
      benchLoop limit divFunc fuel i = some
        { calls := (List.range m).map fun j : Nat => ⟨i + (j : Int), 2, (divFunc (i + (j : Int)) 2).2⟩
          trace := (List.range m).flatMap fun j : Nat => (divFunc (i + (j : Int)) 2).1
          result := .ret () } := by
  intro m
  induction m with
  | zero =>
    intro i fuel _ him hfuel
    obtain ⟨fuel, rfl⟩ : ∃ f, fuel = f + 1 := ⟨fuel - 1, by omega⟩
    have : ¬ i < limit := by simp at him; omega
    simp [benchLoop, this]
  | succ m ih =>
    intro i fuel hi him hfuel
    obtain ⟨fuel, rfl⟩ : ∃ f, fuel = f + 1 := ⟨fuel - 1, by omega⟩
    have hlt : i < limit := by push_cast at him; omega
    obtain ⟨v, hv⟩ := hret i hi hlt
    have hw : wrapInt (i + 1) = i + 1 := wrapInt_succ i hi (by omega)
    have hrec := ih (i + 1) fuel (by omega) (by push_cast at him; omega) (by omega)
    have e1 : ∀ j : Nat, i + ((j + 1 : Nat) : Int) = i + 1 + (j : Int) := by
      intro j; push_cast; ring
    simp only [benchLoop, hlt, if_true, hv, hw, hrec, List.range_succ_eq_map, List.map_cons,
      List.map_map, List.flatMap_cons, List.flatMap_map, Function.comp_def, Nat.succ_eq_add_one,
      e1, Nat.cast_zero, add_zero]

/-- The loop for an arbitrary function: it ends, it makes at most `m` calls when
`i + m = limit`, the `k`-th of them is `divFunc(i + k, 2)`, and it ends normally
only after all `m` calls. -/
theorem benchLoop_any (limit : Int) (hlimit : limit ≤ INT_MAX) (divFunc : pDiv) :
    ∀ (m : Nat) (i : Int) (fuel : Nat), 0 ≤ i → i + m = limit → m < fuel →
      ∃ run, benchLoop limit divFunc fuel i = some run ∧
        run.calls.length ≤ m ∧
        (∀ k : Nat, k < run.calls.length →
          run.calls[k]? = some ⟨i + (k : Int), 2, (divFunc (i + (k : Int)) 2).2⟩) ∧
        (run.result = .ret () → run.calls.length = m) := by
  intro m
  induction m with
  | zero =>
    intro i fuel _ him hfuel
    obtain ⟨fuel, rfl⟩ : ∃ f, fuel = f + 1 := ⟨fuel - 1, by omega⟩
    have : ¬ i < limit := by simp at him; omega
    have hb : benchLoop limit divFunc (fuel + 1) i =
        some { calls := [], trace := [], result := .ret () } := by
      simp [benchLoop, this]
    exact ⟨_, hb, by simp, by simp, by simp⟩
  | succ m ih =>
    intro i fuel hi him hfuel
    obtain ⟨fuel, rfl⟩ : ∃ f, fuel = f + 1 := ⟨fuel - 1, by omega⟩
    have hlt : i < limit := by push_cast at him; omega
    have hw : wrapInt (i + 1) = i + 1 := wrapInt_succ i hi (by omega)
    cases hv : (divFunc i 2).2 with
    | ret v =>
      obtain ⟨rest, hrest, hlen, hget, hdone⟩ :=
        ih (i + 1) fuel (by omega) (by push_cast at him; omega) (by omega)
      have hb : benchLoop limit divFunc (fuel + 1) i =
          some { calls := ⟨i, 2, .ret v⟩ :: rest.calls, trace := (divFunc i 2).1 ++ rest.trace,
                 result := rest.result } := by
        simp only [benchLoop, hlt, if_true, hv, hw, hrest]
      refine ⟨_, hb, ?_, ?_, ?_⟩
      · simp only [List.length_cons]; omega
      · intro k hk
        cases k with
        | zero => simp [hv]
        | succ k =>
          simp only [List.length_cons, Nat.add_lt_add_iff_right] at hk
          have := hget k hk
          simp only [List.getElem?_cons_succ, this]
          have e : i + 1 + (k : Int) = i + ((k + 1 : Nat) : Int) := by push_cast; ring
          rw [e]
      · intro hr
        simp only [List.length_cons, hdone hr]
    | thrown what =>
      have hb : benchLoop limit divFunc (fuel + 1) i =
          some { calls := [⟨i, 2, .thrown what⟩], trace := (divFunc i 2).1,
                 result := .thrown what } := by
        simp only [benchLoop, hlt, if_true, hv]
      refine ⟨_, hb, by simp, ?_, by simp⟩
      intro k hk
      simp only [List.length_singleton, Nat.lt_one_iff] at hk
      subst hk
      simp [hv]
    | fault code =>
      have hb : benchLoop limit divFunc (fuel + 1) i =
          some { calls := [⟨i, 2, .fault code⟩], trace := (divFunc i 2).1,
                 result := .fault code } := by
        simp only [benchLoop, hlt, if_true, hv]
      refine ⟨_, hb, by simp, ?_, by simp⟩
      intro k hk
      simp only [List.length_singleton, Nat.lt_one_iff] at hk
      subst hk
      simp [hv]

/-! ## The three functions on the arguments of the benchmark -/

theorem idiv_two (k : Int) (h0 : 0 ≤ k) (h1 : k < 1000000000) :
    idiv k 2 = .ret (Int.tdiv k 2) :=
  idiv_ret k 2 (by unfold isInt INT_MIN INT_MAX; omega) (by decide)
    (by unfold INT_MIN; omega)

/-- On `(k, 2)` with `0 ≤ k < 1'000'000'000` each of the three functions returns
`k / 2`, and the events are the call, the test where there is one, and the
division. -/
theorem variant_two (k : Int) (h0 : 0 ≤ k) (h1 : k < 1000000000) :
    unsafe_div k 2 = ([.call .unsafe_div k 2, .divide .unsafe_div k 2], .ret (Int.tdiv k 2)) ∧
    checked_div k 2 =
      ([.call .checked_div k 2, .zeroTest .checked_div 2, .divide .checked_div k 2],
       .ret (Int.tdiv k 2)) ∧
    seh_div k 2 = ([.call .seh_div k 2, .divide .seh_div k 2], .ret (Int.tdiv k 2)) :=
  ⟨unsafe_div_ret k 2 _ (idiv_two k h0 h1), checked_div_ret k 2 _ (idiv_two k h0 h1),
   seh_div_ret k 2 _ (idiv_two k h0 h1)⟩

theorem variant_returns (f : Fn) (k : Int) (h0 : 0 ≤ k) (h1 : k < 1000000000) :
    (variant f k 2).2 = .ret (Int.tdiv k 2) := by
  obtain ⟨hu, hc, hs⟩ := variant_two k h0 h1
  cases f
  · show (unsafe_div k 2).2 = _
    rw [hu]
  · show (checked_div k 2).2 = _
    rw [hc]
  · show (seh_div k 2).2 = _
    rw [hs]

/-! ## The harness -/

/-- The harness when every call returns: one billion calls, then the report. -/
theorem benchmark_returns (divFunc : pDiv) (method : String) (startTime stopTime : Int)
    (hret : ∀ k : Int, 0 ≤ k → k < 1000000000 → ∃ v, (divFunc k 2).2 = .ret v) :
    benchmark divFunc method startTime stopTime = some
      { calls := (List.range 1000000000).map fun j : Nat =>
          ⟨(j : Int), 2, (divFunc (j : Int) 2).2⟩
        trace := .now startTime ::
          ((List.range 1000000000).flatMap fun j : Nat => (divFunc (j : Int) 2).1) ++
          [.now stopTime, .write (.str "Method: "), .write (.str method),
           .write (.str "\nBenchmark time (s): "),
           .write (.dbl (elapsedSeconds startTime stopTime)), .write (.str "\n")]
        result := .ret () } := by
  have h := benchLoop_returns 1000000000 (by decide) divFunc hret 1000000000 0 1000000001
    (le_refl _) (by norm_num) (by norm_num)
  simp only [zero_add] at h
  unfold benchmark
  rw [h]

/-- The harness for an arbitrary function: it ends, with at most one billion
calls, the `k`-th being `divFunc(k, 2)`; it ends normally only after all of them. -/
theorem benchmark_any (divFunc : pDiv) (method : String) (startTime stopTime : Int) :
    ∃ run, benchmark divFunc method startTime stopTime = some run ∧
      run.calls.length ≤ 1000000000 ∧
      (∀ k : Nat, k < run.calls.length →
        run.calls[k]? = some ⟨(k : Int), 2, (divFunc (k : Int) 2).2⟩) ∧
      (run.result = .ret () → run.calls.length = 1000000000) := by
  obtain ⟨loop, hloop, hlen, hget, hdone⟩ :=
    benchLoop_any 1000000000 (by decide) divFunc 1000000000 0 1000000001
      (le_refl _) (by norm_num) (by norm_num)
  simp only [zero_add] at hget
  unfold benchmark
  rw [hloop]
  obtain ⟨calls, trace, result⟩ := loop
  cases result with
  | ret u => exact ⟨_, rfl, hlen, hget, fun _ => hdone rfl⟩
  | thrown what =>
    refine ⟨_, rfl, hlen, hget, ?_⟩
    intro h
    cases h
  | fault code =>
    refine ⟨_, rfl, hlen, hget, ?_⟩
    intro h
    cases h

/-! ## Standard output and the printed time -/

theorem stdout_append (a b : List Event) : stdout (a ++ b) = stdout a ++ stdout b := by
  induction a with
  | nil => rfl
  | cons e rest ih => cases e <;> simp [stdout, ih]

/-- A trace without `write` events prints nothing. -/
theorem stdout_eq_nil (tr : List Event) (h : ∀ item, Event.write item ∉ tr) :
    stdout tr = [] := by
  induction tr with
  | nil => rfl
  | cons e rest ih =>
    have hrest : ∀ item, Event.write item ∉ rest := fun item hm =>
      h item (List.mem_cons_of_mem _ hm)
    cases e <;> simp [stdout, ih hrest]
    exact h _ (List.mem_cons_self _ _)

/-- The events of the three functions on the arguments of the benchmark are
calls, tests and divisions only. -/
theorem callEvents_variant (f : Fn) (e : Event) (he : e ∈ callEvents (variant f)) :
    ∃ k : Int, 0 ≤ k ∧ k < 1000000000 ∧
      (e = .call f k 2 ∨ e = .zeroTest f 2 ∨ e = .divide f k 2) := by
  unfold callEvents at he
  rw [List.mem_flatMap] at he
  obtain ⟨j, hj, hmem⟩ := he
  rw [List.mem_range] at hj
  have h0 : (0 : Int) ≤ (j : Int) := Int.ofNat_nonneg j
  have h1 : (j : Int) < 1000000000 := by exact_mod_cast hj
  obtain ⟨hu, hc, hs⟩ := variant_two (j : Int) h0 h1
  refine ⟨(j : Int), h0, h1, ?_⟩
  cases f
  · simp only [variant] at hmem
    rw [hu] at hmem
    simp only [List.mem_cons, List.mem_singleton, List.not_mem_nil, or_false] at hmem
    rcases hmem with h | h
    · exact Or.inl h
    · exact Or.inr (Or.inr h)
  · simp only [variant] at hmem
    rw [hc] at hmem
    simp only [List.mem_cons, List.mem_singleton, List.not_mem_nil, or_false] at hmem
    exact hmem
  · simp only [variant] at hmem
    rw [hs] at hmem
    simp only [List.mem_cons, List.mem_singleton, List.not_mem_nil, or_false] at hmem
    rcases hmem with h | h
    · exact Or.inl h
    · exact Or.inr (Or.inr h)

theorem stdout_callEvents (f : Fn) : stdout (callEvents (variant f)) = [] := by
  apply stdout_eq_nil
  intro item hmem
  obtain ⟨k, -, -, h | h | h⟩ := callEvents_variant f _ hmem <;> cases h

theorem variantTrace_mem (f : Fn) (method : String) (startTime stopTime : Int) (e : Event)
    (he : e ∈ variantTrace f method startTime stopTime) :
    e = .now startTime ∨ e ∈ callEvents (variant f) ∨
    e ∈ [Event.now stopTime, .write (.str "Method: "), .write (.str method),
         .write (.str "\nBenchmark time (s): "),
         .write (.dbl (elapsedSeconds startTime stopTime)), .write (.str "\n")] := by
  unfold variantTrace at he
  rcases List.mem_append.mp he with h | h
  · rcases List.mem_cons.mp h with h | h
    · exact Or.inl h
    · exact Or.inr (Or.inl h)
  · exact Or.inr (Or.inr h)

theorem stdout_now (t : Int) (rest : List Event) : stdout (.now t :: rest) = stdout rest := rfl

theorem stdout_report (method : String) (t : Int) (x : ℚ) :
    stdout [.now t, .write (.str "Method: "), .write (.str method),
      .write (.str "\nBenchmark time (s): "), .write (.dbl x), .write (.str "\n")] =
    [.str "Method: ", .str method, .str "\nBenchmark time (s): ", .dbl x, .str "\n"] := rfl

theorem variantTrace_stdout (f : Fn) (method : String) (startTime stopTime : Int) :
    stdout (variantTrace f method startTime stopTime) =
      [.str "Method: ", .str method, .str "\nBenchmark time (s): ",
       .dbl (elapsedSeconds startTime stopTime), .str "\n"] := by
  unfold variantTrace
  rw [stdout_append, stdout_now, stdout_callEvents, stdout_report, List.nil_append]

/-- The harness on one of the three functions, in closed form. -/
theorem benchmark_variant (f : Fn) (method : String) (startTime stopTime : Int) :
    benchmark (variant f) method startTime stopTime = some
      { calls := (List.range 1000000000).map fun j : Nat =>
          ⟨(j : Int), 2, .ret (Int.tdiv (j : Int) 2)⟩
        trace := variantTrace f method startTime stopTime
        result := .ret () } := by
  rw [benchmark_returns (variant f) method startTime stopTime
    (fun k h0 h1 => ⟨_, variant_returns f k h0 h1⟩)]
  have hcalls : ((List.range 1000000000).map fun j : Nat =>
      (⟨(j : Int), 2, (variant f (j : Int) 2).2⟩ : Call)) =
      (List.range 1000000000).map fun j : Nat => ⟨(j : Int), 2, .ret (Int.tdiv (j : Int) 2)⟩ := by
    apply List.map_congr_left
    intro j hj
    rw [List.mem_range] at hj
    rw [variant_returns f (j : Int) (Int.ofNat_nonneg j) (by exact_mod_cast hj)]
  rw [hcalls]
  unfold variantTrace callEvents
  rfl

/-! ## The benchmark: calls, completion, repetition -/

/-- C6, as stated, fails: a function of type `pDiv` may throw. The function that
divides its second argument by its first, with the check of `checked_div`,
throws in the first call, `divFunc(0, 2)`; the exception leaves the loop and
`benchmark`, which has made one call, not one billion. -/
theorem c6_throwing_function_counterexample :
    ∃ run, benchmark (fun n d => checked_div d n) "swapped" 0 0 = some run ∧
      run.calls = [⟨0, 2, .thrown "Divide by zero. -checked_div"⟩] ∧
      run.calls.length ≠ 1000000000 ∧
      run.result = .thrown "Divide by zero. -checked_div" :=
  ⟨{ calls := [⟨0, 2, .thrown "Divide by zero. -checked_div"⟩],
     trace := [.now 0, .call .checked_div 2 0, .zeroTest .checked_div 0,
               .throw .checked_div "Divide by zero. -checked_div"],
     result := .thrown "Divide by zero. -checked_div" },
   by rfl, rfl, by decide, rfl⟩

/-- C6, amended: for every function `divFunc` given to it, `benchmark` ends; the
calls it makes are `divFunc(0, 2)`, `divFunc(1, 2)`, ... in this order, at most
`1'000'000'000` of them; in every call the denominator is `2` and the counter,
as well as its successor, is an `int` (the increment does not wrap). When each
call `divFunc(k, 2)` with `0 ≤ k < 1'000'000'000` returns normally, `benchmark`
makes exactly `1'000'000'000` calls and ends normally. -/
theorem c6_benchmark_calls (divFunc : pDiv) (method : String) (startTime stopTime : Int) :
    ∃ run, benchmark divFunc method startTime stopTime = some run ∧
      run.calls.length ≤ 1000000000 ∧
      (∀ k : Nat, k < run.calls.length →
        run.calls[k]? = some ⟨(k : Int), 2, (divFunc (k : Int) 2).2⟩) ∧
      (∀ c ∈ run.calls, c.denominator = 2 ∧ 0 ≤ c.numerator ∧ c.numerator < 1000000000 ∧
        isInt c.numerator ∧ isInt (c.numerator + 1) ∧
        wrapInt (c.numerator + 1) = c.numerator + 1) ∧
      ((∀ k : Int, 0 ≤ k → k < 1000000000 → ∃ v, (divFunc k 2).2 = .ret v) →
        run.calls.length = 1000000000 ∧ run.result = .ret () ∧
        ∀ k : Nat, k < 1000000000 →
          run.calls[k]? = some ⟨(k : Int), 2, (divFunc (k : Int) 2).2⟩) := by
  obtain ⟨run, hrun, hlen, hget, hdone⟩ := benchmark_any divFunc method startTime stopTime
  refine ⟨run, hrun, hlen, hget, ?_, ?_⟩
  · intro c hc
    obtain ⟨k, hk, hck⟩ := List.getElem_of_mem hc
    have hsome := hget k hk
    rw [List.getElem?_eq_getElem hk, hck] at hsome
    obtain rfl := Option.some.inj hsome
    have hk0 : (0 : Int) ≤ (k : Int) := Int.ofNat_nonneg k
    have hk1 : (k : Int) < 1000000000 := by
      have : k < 1000000000 := by omega
      exact_mod_cast this
    refine ⟨rfl, hk0, hk1, ?_, ?_, ?_⟩
    · unfold isInt INT_MIN INT_MAX
      constructor <;> simp only <;> omega
    · unfold isInt INT_MIN INT_MAX
      constructor <;> simp only <;> omega
    · exact wrapInt_succ _ hk0 (by unfold INT_MAX; simp only; omega)
  · intro hret
    have hclosed := benchmark_returns divFunc method startTime stopTime hret
    rw [hrun] at hclosed
    obtain rfl := Option.some.inj hclosed
    refine ⟨by simp, rfl, ?_⟩
    intro k hk
    simp [List.getElem?_range hk]

/-- Witness of C6 amended: `unsafe_div` returns on every `(k, 2)` in range, so the
benchmark of `unsafe_div` makes one billion calls. -/
theorem c6_benchmark_calls_witness :
    ∃ run, benchmark unsafe_div "unsafe_div" 0 0 = some run ∧
      run.calls.length = 1000000000 ∧ run.result = .ret () :=
  (c6_benchmark_calls unsafe_div "unsafe_div" 0 0).imp fun _ h =>
    ⟨h.1, (h.2.2.2.2 fun k h0 h1 => ⟨_, variant_returns .unsafe_div k h0 h1⟩).1,
     (h.2.2.2.2 fun k h0 h1 => ⟨_, variant_returns .unsafe_div k h0 h1⟩).2.1⟩

/-! ## The driver -/

theorem andThen_ret {α : Type} (tr : List Event) (u : Unit) (tr2 : List Event) (r : Result α) :
    andThen (some (tr, .ret u)) (some (tr2, r)) = some (tr ++ tr2, r) := rfl

theorem stmt_variant (f : Fn) (method : String) (startTime stopTime : Int) :
    stmt (benchmark (variant f) method startTime stopTime) =
      some (variantTrace f method startTime stopTime, .ret ()) := by
  rw [benchmark_variant]
  rfl

/-- The first demonstration of `main`: the call throws and the text is printed. -/
theorem tryPrint_checked_div :
    tryPrint (checked_div 42 0) =
      ([.call .checked_div 42 0, .zeroTest .checked_div 0,
        .throw .checked_div "Divide by zero. -checked_div",
        .write (.str "Divide by zero. -checked_div"), .write (.str "\n")], .ret ()) := by
  decide

/-- The second demonstration of `main`: the fault is turned into a throw and the
text is printed. -/
theorem tryPrint_seh_div :
    tryPrint (seh_div 42 0) =
      ([.call .seh_div 42 0, .divide .seh_div 42 0,
        .fault .seh_div EXCEPTION_INT_DIVIDE_BY_ZERO,
        .filter .seh_div EXCEPTION_INT_DIVIDE_BY_ZERO EXCEPTION_EXECUTE_HANDLER,
        .throw .seh_div "Divide by zero. -seh_div",
        .write (.str "Divide by zero. -seh_div"), .write (.str "\n")], .ret ()) := by
  decide

/-- The run of `main` in closed form. -/
theorem main_eq (clock : Nat → Int) :
    main clock = some
      ((tryPrint (checked_div 42 0)).1 ++ ((tryPrint (seh_div 42 0)).1 ++
        (variantTrace .unsafe_div "unsafe_div" (clock 0) (clock 1) ++
        (variantTrace .checked_div "checked_div" (clock 2) (clock 3) ++
        (variantTrace .seh_div "seh_div" (clock 4) (clock 5) ++
        (variantTrace .unsafe_div "unsafe_div" (clock 6) (clock 7) ++
        (variantTrace .checked_div "checked_div" (clock 8) (clock 9) ++
        (variantTrace .seh_div "seh_div" (clock 10) (clock 11) ++
        [.system "pause"]))))))), .ret 0) := by
  have hu : ∀ s t, stmt (benchmark unsafe_div "unsafe_div" s t) =
      some (variantTrace .unsafe_div "unsafe_div" s t, .ret ()) :=
    fun s t => stmt_variant .unsafe_div "unsafe_div" s t
  have hc : ∀ s t, stmt (benchmark checked_div "checked_div" s t) =
      some (variantTrace .checked_div "checked_div" s t, .ret ()) :=
    fun s t => stmt_variant .checked_div "checked_div" s t
  have hs : ∀ s t, stmt (benchmark seh_div "seh_div" s t) =
      some (variantTrace .seh_div "seh_div" s t, .ret ()) :=
    fun s t => stmt_variant .seh_div "seh_div" s t
  have h1 : tryPrint (checked_div 42 0) = ((tryPrint (checked_div 42 0)).1, .ret ()) := by
    rw [tryPrint_checked_div]
  have h2 : tryPrint (seh_div 42 0) = ((tryPrint (seh_div 42 0)).1, .ret ()) := by
    rw [tryPrint_seh_div]
  unfold main
  rw [hu, hu, hc, hc, hs, hs]
  generalize (tryPrint (checked_div 42 0)).1 = d1 at h1 ⊢
  generalize (tryPrint (seh_div 42 0)).1 = d2 at h2 ⊢
  rw [h1, h2]
  simp only [andThen_ret]

/-- Membership in the events of `main`: the first demonstration, the second, one
of the six harness runs, or the final `system("pause")`. -/
theorem main_trace_mem (clock : Nat → Int) (tr : List Event) (r : Result Int)
    (hmain : main clock = some (tr, r)) (e : Event) (he : e ∈ tr) :
    e ∈ (tryPrint (checked_div 42 0)).1 ∨ e ∈ (tryPrint (seh_div 42 0)).1 ∨
    (∃ f method s t, e ∈ variantTrace f method s t) ∨ e = .system "pause" := by
  rw [main_eq] at hmain
  obtain ⟨rfl, -⟩ := Prod.mk.inj (Option.some.inj hmain)
  rcases List.mem_append.mp he with h | he
  · exact Or.inl h
  rcases List.mem_append.mp he with h | he
  · exact Or.inr (Or.inl h)
  rcases List.mem_append.mp he with h | he
  · exact Or.inr (Or.inr (Or.inl ⟨_, _, _, _, h⟩))
  rcases List.mem_append.mp he with h | he
  · exact Or.inr (Or.inr (Or.inl ⟨_, _, _, _, h⟩))
  rcases List.mem_append.mp he with h | he
  · exact Or.inr (Or.inr (Or.inl ⟨_, _, _, _, h⟩))
  rcases List.mem_append.mp he with h | he
  · exact Or.inr (Or.inr (Or.inl ⟨_, _, _, _, h⟩))
  rcases List.mem_append.mp he with h | he
  · exact Or.inr (Or.inr (Or.inl ⟨_, _, _, _, h⟩))
  rcases List.mem_append.mp he with h | he
  · exact Or.inr (Or.inr (Or.inl ⟨_, _, _, _, h⟩))
  exact Or.inr (Or.inr (Or.inr (List.mem_singleton.mp he)))

/-- The events of a harness run on `f` that belong to a division function belong
to `f`, with denominator `2` and a numerator below one billion. -/
theorem variantTrace_division_events (f : Fn) (method : String) (s t : Int) (e : Event)
    (he : e ∈ variantTrace f method s t) :
    (∀ g n d, e = .call g n d → g = f ∧ d = 2 ∧ 0 ≤ n ∧ n < 1000000000) ∧
    (∀ g n d, e = .divide g n d → g = f ∧ d = 2 ∧ 0 ≤ n ∧ n < 1000000000) ∧
    (∀ g code, e ≠ .fault g code) ∧ (∀ g what, e ≠ .throw g what) := by
  rcases variantTrace_mem f method s t e he with h | h | h
  · subst h
    refine ⟨?_, ?_, ?_, ?_⟩ <;>
      first | (intro _ _ _ h; cases h) | (intro _ _ h; cases h)
  · obtain ⟨k, hk0, hk1, h | h | h⟩ := callEvents_variant f e h
    · subst h
      refine ⟨?_, ?_, ?_, ?_⟩
      · intro g n d h
        cases h
        exact ⟨rfl, rfl, hk0, hk1⟩
      · intro g n d h
        cases h
      · intro g code h
        cases h
      · intro g what h
        cases h
    · subst h
      refine ⟨?_, ?_, ?_, ?_⟩
      · intro g n d h
        cases h
      · intro g n d h
        cases h
      · intro g code h
        cases h
      · intro g what h
        cases h
    · subst h
      refine ⟨?_, ?_, ?_, ?_⟩
      · intro g n d h
        cases h
      · intro g n d h
        cases h
        exact ⟨rfl, rfl, hk0, hk1⟩
      · intro g code h
        cases h
      · intro g what h
        cases h
  · simp only [List.mem_cons, List.mem_singleton, List.not_mem_nil, or_false] at h
    rcases h with h | h | h | h | h | h <;> subst h <;> refine ⟨?_, ?_, ?_, ?_⟩ <;>
      first | (intro _ _ _ h; cases h) | (intro _ _ h; cases h)

/-- What the events of `main` send to standard output. -/
theorem main_stdout (clock : Nat → Int) :
    stdout
      ((tryPrint (checked_div 42 0)).1 ++ ((tryPrint (seh_div 42 0)).1 ++
        (variantTrace .unsafe_div "unsafe_div" (clock 0) (clock 1) ++
        (variantTrace .checked_div "checked_div" (clock 2) (clock 3) ++
        (variantTrace .seh_div "seh_div" (clock 4) (clock 5) ++
        (variantTrace .unsafe_div "unsafe_div" (clock 6) (clock 7) ++
        (variantTrace .checked_div "checked_div" (clock 8) (clock 9) ++
        (variantTrace .seh_div "seh_div" (clock 10) (clock 11) ++
        [.system "pause"])))))))) =
      [.str "Divide by zero. -checked_div", .str "\n",
         .str "Divide by zero. -seh_div", .str "\n"] ++
        ([.str "Method: ", .str "unsafe_div", .str "\nBenchmark time (s): ",
          .dbl (elapsedSeconds (clock 0) (clock 1)), .str "\n"] ++
        ([.str "Method: ", .str "checked_div", .str "\nBenchmark time (s): ",
          .dbl (elapsedSeconds (clock 2) (clock 3)), .str "\n"] ++
        ([.str "Method: ", .str "seh_div", .str "\nBenchmark time (s): ",
          .dbl (elapsedSeconds (clock 4) (clock 5)), .str "\n"] ++
        ([.str "Method: ", .str "unsafe_div", .str "\nBenchmark time (s): ",
          .dbl (elapsedSeconds (clock 6) (clock 7)), .str "\n"] ++
        ([.str "Method: ", .str "checked_div", .str "\nBenchmark time (s): ",
          .dbl (elapsedSeconds (clock 8) (clock 9)), .str "\n"] ++
        ([.str "Method: ", .str "seh_div", .str "\nBenchmark time (s): ",
          .dbl (elapsedSeconds (clock 10) (clock 11)), .str "\n"])))))) := by
  rw [stdout_append, stdout_append, stdout_append, stdout_append, stdout_append,
    stdout_append, stdout_append, stdout_append, variantTrace_stdout, variantTrace_stdout,
    variantTrace_stdout, variantTrace_stdout, variantTrace_stdout, variantTrace_stdout,
    tryPrint_checked_div, tryPrint_seh_div]
  rfl

/-- C7: whatever the clock readings, `main` ends by returning `0`, and standard
output receives, in this order: the text `Divide by zero. -checked_div` and a
newline; the text `Divide by zero. -seh_div` and a newline; then six reports, for
`unsafe_div`, `checked_div`, `seh_div`, `unsafe_div`, `checked_div`, `seh_div`,
each a line `Method: ` with the name and a line `Benchmark time (s): ` with the
time measured by that run. No `int` is printed: neither demonstration prints a
quotient. -/
theorem c7_main_output (clock : Nat → Int) :
    ∃ tr, main clock = some (tr, .ret 0) ∧
      stdout tr =
        [.str "Divide by zero. -checked_div", .str "\n",
         .str "Divide by zero. -seh_div", .str "\n"] ++
        ([.str "Method: ", .str "unsafe_div", .str "\nBenchmark time (s): ",
          .dbl (elapsedSeconds (clock 0) (clock 1)), .str "\n"] ++
        ([.str "Method: ", .str "checked_div", .str "\nBenchmark time (s): ",
          .dbl (elapsedSeconds (clock 2) (clock 3)), .str "\n"] ++
        ([.str "Method: ", .str "seh_div", .str "\nBenchmark time (s): ",
          .dbl (elapsedSeconds (clock 4) (clock 5)), .str "\n"] ++
        ([.str "Method: ", .str "unsafe_div", .str "\nBenchmark time (s): ",
          .dbl (elapsedSeconds (clock 6) (clock 7)), .str "\n"] ++
        ([.str "Method: ", .str "checked_div", .str "\nBenchmark time (s): ",
          .dbl (elapsedSeconds (clock 8) (clock 9)), .str "\n"] ++
        ([.str "Method: ", .str "seh_div", .str "\nBenchmark time (s): ",
          .dbl (elapsedSeconds (clock 10) (clock 11)), .str "\n"])))))) ∧
      (∀ v, OutItem.int v ∉ stdout tr) ∧
      ∀ showDouble : ℚ → String, render showDouble (stdout tr) =
        "Divide by zero. -checked_div\nDivide by zero. -seh_div\n" ++
        ("Method: unsafe_div\nBenchmark time (s): " ++
          (showDouble (elapsedSeconds (clock 0) (clock 1)) ++ ("\n" ++
        ("Method: checked_div\nBenchmark time (s): " ++
          (showDouble (elapsedSeconds (clock 2) (clock 3)) ++ ("\n" ++
        ("Method: seh_div\nBenchmark time (s): " ++
          (showDouble (elapsedSeconds (clock 4) (clock 5)) ++ ("\n" ++
        ("Method: unsafe_div\nBenchmark time (s): " ++
          (showDouble (elapsedSeconds (clock 6) (clock 7)) ++ ("\n" ++
        ("Method: checked_div\nBenchmark time (s): " ++
          (showDouble (elapsedSeconds (clock 8) (clock 9)) ++ ("\n" ++
        ("Method: seh_div\nBenchmark time (s): " ++
          (showDouble (elapsedSeconds (clock 10) (clock 11)) ++ "\n"))))))))))))))))) := by
  have hout := main_stdout clock
  refine ⟨_, main_eq clock, hout, ?_, ?_⟩
  · intro v hv
    rw [hout] at hv
    simp only [List.mem_append, List.mem_cons, List.mem_singleton, List.not_mem_nil,
      reduceCtorEq, or_self, or_false] at hv
  · intro showDouble
    have e0 : "Divide by zero. -checked_div\nDivide by zero. -seh_div\n" =
        "Divide by zero. -checked_div" ++ ("\n" ++ ("Divide by zero. -seh_div" ++ "\n")) := by
      decide
    have eu : "Method: unsafe_div\nBenchmark time (s): " =
        "Method: " ++ ("unsafe_div" ++ "\nBenchmark time (s): ") := by decide
    have ec : "Method: checked_div\nBenchmark time (s): " =
        "Method: " ++ ("checked_div" ++ "\nBenchmark time (s): ") := by decide
    have es : "Method: seh_div\nBenchmark time (s): " =
        "Method: " ++ ("seh_div" ++ "\nBenchmark time (s): ") := by decide
    rw [hout, e0, eu, ec, es]
    simp only [List.cons_append, List.nil_append, render, String.append_assoc,
      String.append_empty]

/-- C9: in a run of `main`, every call of `unsafe_div` has denominator `2` and a
numerator from `0` to `999'999'999`; none has denominator `0`, and the division
instruction of `unsafe_div` raises no fault. The two demonstrations contain no
call of `unsafe_div`: the events of `main` are those of the two demonstrations,
then those of the six runs of `benchmark`, then `system("pause")`, so the calls
of `unsafe_div` come from `benchmark`. -/
theorem c9_unsafe_div_never_zero (clock : Nat → Int) :
    ∃ tr, main clock = some (tr, .ret 0) ∧
      (∀ n d, Event.call .unsafe_div n d ∈ tr → d = 2 ∧ 0 ≤ n ∧ n < 1000000000) ∧
      (∀ n d, Event.divide .unsafe_div n d ∈ tr → d = 2 ∧ 0 ≤ n ∧ n < 1000000000) ∧
      (∀ n, Event.call .unsafe_div n 0 ∉ tr) ∧
      (∀ code, Event.fault .unsafe_div code ∉ tr) ∧
      (∀ n d, Event.call .unsafe_div n d ∉ (tryPrint (checked_div 42 0)).1 ∧
        Event.call .unsafe_div n d ∉ (tryPrint (seh_div 42 0)).1) ∧
      ∃ r1 r2 r3 r4 r5 r6 : Run,
        benchmark unsafe_div "unsafe_div" (clock 0) (clock 1) = some r1 ∧
        benchmark checked_div "checked_div" (clock 2) (clock 3) = some r2 ∧
        benchmark seh_div "seh_div" (clock 4) (clock 5) = some r3 ∧
        benchmark unsafe_div "unsafe_div" (clock 6) (clock 7) = some r4 ∧
        benchmark checked_div "checked_div" (clock 8) (clock 9) = some r5 ∧
        benchmark seh_div "seh_div" (clock 10) (clock 11) = some r6 ∧
        tr = (tryPrint (checked_div 42 0)).1 ++ ((tryPrint (seh_div 42 0)).1 ++
          (r1.trace ++ (r2.trace ++ (r3.trace ++ (r4.trace ++ (r5.trace ++ (r6.trace ++
            [.system "pause"]))))))) := by
  have hdemo : ∀ n d, Event.call .unsafe_div n d ∉ (tryPrint (checked_div 42 0)).1 ∧
      Event.call .unsafe_div n d ∉ (tryPrint (seh_div 42 0)).1 := by
    intro n d
    rw [tryPrint_checked_div, tryPrint_seh_div]
    constructor <;> simp
  have hcall : ∀ tr, main clock = some (tr, .ret 0) → ∀ n d,
      Event.call .unsafe_div n d ∈ tr → d = 2 ∧ 0 ≤ n ∧ n < 1000000000 := by
    intro tr hmain n d hmem
    rcases main_trace_mem clock tr _ hmain _ hmem with h | h | ⟨f, m, s, t, h⟩ | h
    · exact absurd h (hdemo n d).1
    · exact absurd h (hdemo n d).2
    · exact ((variantTrace_division_events f m s t _ h).1 _ n d rfl).2
    · cases h
  refine ⟨_, main_eq clock, hcall _ (main_eq clock), ?_, ?_, ?_, hdemo, ?_⟩
  · intro n d hmem
    rcases main_trace_mem clock _ _ (main_eq clock) _ hmem with h | h | ⟨f, m, s, t, h⟩ | h
    · rw [tryPrint_checked_div] at h
      simp at h
    · rw [tryPrint_seh_div] at h
      simp at h
    · exact ((variantTrace_division_events f m s t _ h).2.1 _ n d rfl).2
    · cases h
  · intro n hmem
    have h := (hcall _ (main_eq clock) n 0 hmem).1
    exact absurd h (by decide)
  · intro code hmem
    rcases main_trace_mem clock _ _ (main_eq clock) _ hmem with h | h | ⟨f, m, s, t, h⟩ | h
    · rw [tryPrint_checked_div] at h
      simp at h
    · rw [tryPrint_seh_div] at h
      simp at h
    · exact (variantTrace_division_events f m s t _ h).2.2.1 _ code rfl
    · cases h
  · exact ⟨_, _, _, _, _, _, benchmark_variant .unsafe_div _ _ _,
      benchmark_variant .checked_div _ _ _, benchmark_variant .seh_div _ _ _,
      benchmark_variant .unsafe_div _ _ _, benchmark_variant .checked_div _ _ _,
      benchmark_variant .seh_div _ _ _, rfl⟩

/-- C8: two runs of `benchmark` on the same one of the three functions, whatever
the clock readings of each, make the same calls with the same outcomes: call
number `i` is `f(i, 2)` and returns `i / 2` in both. Both runs end normally, and
their events differ in nothing but the two clock readings and the printed time.
In `main` the events are those of the two demonstrations, of the three runs of
the first pass, of the three runs of the second pass, and `system("pause")`;
each run of the second pass has the calls and outcomes of the run of the first
pass on the same function. -/
theorem c8_second_pass_same_results (f : Fn) (method : String)
    (start1 stop1 start2 stop2 : Int) (clock : Nat → Int) :
    (∃ first second body,
      benchmark (variant f) method start1 stop1 = some first ∧
      benchmark (variant f) method start2 stop2 = some second ∧
      first.calls = second.calls ∧
      first.result = .ret () ∧ second.result = .ret () ∧
      first.calls.length = 1000000000 ∧
      (∀ i : Nat, i < 1000000000 →
        first.calls[i]? = some ⟨(i : Int), 2, (variant f (i : Int) 2).2⟩ ∧
        second.calls[i]? = some ⟨(i : Int), 2, (variant f (i : Int) 2).2⟩ ∧
        (variant f (i : Int) 2).2 = .ret (Int.tdiv (i : Int) 2)) ∧
      first.trace = (.now start1 :: body) ++
        [.now stop1, .write (.str "Method: "), .write (.str method),
         .write (.str "\nBenchmark time (s): "),
         .write (.dbl (elapsedSeconds start1 stop1)), .write (.str "\n")] ∧
      second.trace = (.now start2 :: body) ++
        [.now stop2, .write (.str "Method: "), .write (.str method),
         .write (.str "\nBenchmark time (s): "),
         .write (.dbl (elapsedSeconds start2 stop2)), .write (.str "\n")]) ∧
    (∃ p1 p2 p3 q1 q2 q3 : Run,
      benchmark unsafe_div "unsafe_div" (clock 0) (clock 1) = some p1 ∧
      benchmark checked_div "checked_div" (clock 2) (clock 3) = some p2 ∧
      benchmark seh_div "seh_div" (clock 4) (clock 5) = some p3 ∧
      benchmark unsafe_div "unsafe_div" (clock 6) (clock 7) = some q1 ∧
      benchmark checked_div "checked_div" (clock 8) (clock 9) = some q2 ∧
      benchmark seh_div "seh_div" (clock 10) (clock 11) = some q3 ∧
      main clock = some
        ((tryPrint (checked_div 42 0)).1 ++ ((tryPrint (seh_div 42 0)).1 ++
          (p1.trace ++ (p2.trace ++ (p3.trace ++ (q1.trace ++ (q2.trace ++ (q3.trace ++
            [.system "pause"]))))))), .ret 0) ∧
      q1.calls = p1.calls ∧ q2.calls = p2.calls ∧ q3.calls = p3.calls ∧
      q1.result = p1.result ∧ q2.result = p2.result ∧ q3.result = p3.result) := by
  constructor
  · refine ⟨_, _, callEvents (variant f), benchmark_variant f method start1 stop1,
      benchmark_variant f method start2 stop2, rfl, rfl, rfl, by simp, ?_, rfl, rfl⟩
    intro i hi
    have hr := variant_returns f (i : Int) (Int.ofNat_nonneg i) (by exact_mod_cast hi)
    refine ⟨?_, ?_, hr⟩ <;> simp [List.getElem?_range hi, hr]
  · exact ⟨_, _, _, _, _, _, benchmark_variant .unsafe_div _ _ _,
      benchmark_variant .checked_div _ _ _, benchmark_variant .seh_div _ _ _,
      benchmark_variant .unsafe_div _ _ _, benchmark_variant .checked_div _ _ _,
      benchmark_variant .seh_div _ _ _, main_eq clock, rfl, rfl, rfl, rfl, rfl, rfl⟩

end DivideByZero
